import Mathlib

/-!
Verification development for the haproxy-consul-connect sidecar controller.

The Go sources are shallowly embedded: pure functions become Lean functions,
machine integers become Nat/Int with explicit wrap-around where the code relies
on it, byte slices become `List Nat` (each element a byte value), Go strings
become Lean `String` (or `List Char` where character-level computation is
needed), and fallible or effectful code is modelled by explicit state passing
with the outcomes of external calls (filesystem, process, network) supplied as
parameters.

Sections, in dependency order:
  SHA256    - the hash used by the certificate store (Go crypto/sha256,
              i.e. FIPS 180-4), implemented executably over byte lists.
  CertStore - haConfig.FilePath from src/haproxy/certs.go.
  Consul    - the watcher data model, genCfg snapshot construction and the
              sidecar-discovery retry schedule from src/consul/watcher.go.
  HAState   - the declarative proxy state and the state generator from
              src/haproxy/state (upstream.go and the downstream generator).
  Loop      - one round of the convergence loop HAProxy.watch.
  Writer    - ConfigWriter.ApplyConfig.
  Cmd       - compareVersion / CheckEnvironment version bounds.
  Authz     - the SPOE authorization cache of SPOEHandler.isAuthorized.
  Bootstrap - ParseEnvoyBootstrap from src/utils/envoy_bootstrap.go.
-/

namespace SHA256

/-- Word modulus: arithmetic in crypto/sha256 is on uint32. -/
def m32 : Nat := 4294967296

/-- Addition modulo 2^32. -/
def add32 (a b : Nat) : Nat := (a + b) % m32

/-- Rotate a 32-bit word right by `n` bits. -/
def rotr (n x : Nat) : Nat := ((x >>> n) ||| (x <<< (32 - n))) % m32

/-- Logical right shift. -/
def shr (n x : Nat) : Nat := x >>> n

/-- FIPS 180-4 Sigma0. -/
def bSig0 (x : Nat) : Nat := (rotr 2 x) ^^^ (rotr 13 x) ^^^ (rotr 22 x)

/-- FIPS 180-4 Sigma1. -/
def bSig1 (x : Nat) : Nat := (rotr 6 x) ^^^ (rotr 11 x) ^^^ (rotr 25 x)

/-- FIPS 180-4 sigma0. -/
def sSig0 (x : Nat) : Nat := (rotr 7 x) ^^^ (rotr 18 x) ^^^ (shr 3 x)

/-- FIPS 180-4 sigma1. -/
def sSig1 (x : Nat) : Nat := (rotr 17 x) ^^^ (rotr 19 x) ^^^ (shr 10 x)

/-- Choice function; the complement of `x` is taken within 32 bits. -/
def ch (x y z : Nat) : Nat := (x &&& y) ^^^ ((x ^^^ (m32 - 1)) &&& z)

/-- Majority function. -/
def maj (x y z : Nat) : Nat := (x &&& y) ^^^ (x &&& z) ^^^ (y &&& z)

/-- The 64 round constants. -/
def K : List Nat :=
  [1116352408, 1899447441, 3049323471, 3921009573, 961987163, 1508970993, 2453635748, 2870763221,
   3624381080, 310598401, 607225278, 1426881987, 1925078388, 2162078206, 2614888103, 3248222580,
   3835390401, 4022224774, 264347078, 604807628, 770255983, 1249150122, 1555081692, 1996064986,
   2554220882, 2821834349, 2952996808, 3210313671, 3336571891, 3584528711, 113926993, 338241895,
   666307205, 773529912, 1294757372, 1396182291, 1695183700, 1986661051, 2177026350, 2456956037,
   2730485921, 2820302411, 3259730800, 3345764771, 3516065817, 3600352804, 4094571909, 275423344,
   430227734, 506948616, 659060556, 883997877, 958139571, 1322822218, 1537002063, 1747873779,
   1955562222, 2024104815, 2227730452, 2361852424, 2428436474, 2756734187, 3204031479, 3329325298]

/-- The eight-word working state / chaining value. -/
structure H8 where
  a : Nat
  b : Nat
  c : Nat
  d : Nat
  e : Nat
  f : Nat
  g : Nat
  hh : Nat
deriving DecidableEq

/-- Initial hash value. -/
def H0 : H8 := ⟨1779033703, 3144134277, 1013904242, 2773480762, 1359893119, 2600822924, 528734635, 1541459225⟩

/-- Merkle-Damgaard padding: append 128, zero bytes to 56 mod 64, then the
bit length as a 64-bit big-endian integer. -/
def pad (msg : List Nat) : List Nat :=
  let len := msg.length
  let z := (119 - len % 64) % 64
  let bitLen := (len * 8) % (2 ^ 64)
  msg ++ 128 :: List.replicate z 0 ++
    [(bitLen >>> 56) % 256, (bitLen >>> 48) % 256, (bitLen >>> 40) % 256, (bitLen >>> 32) % 256,
     (bitLen >>> 24) % 256, (bitLen >>> 16) % 256, (bitLen >>> 8) % 256, bitLen % 256]

/-- Big-endian grouping of bytes into 32-bit words. -/
def bytesToWords : List Nat → List Nat
  | b0 :: b1 :: b2 :: b3 :: rest => (((b0 * 256 + b1) * 256 + b2) * 256 + b3) :: bytesToWords rest
  | _ => []

/-- Message-schedule expansion: append `n` further words, each computed from
the words 2, 7, 15 and 16 places back. -/
def expand (w : List Nat) : Nat → List Nat
  | 0 => w
  | n + 1 =>
    let l := w.length
    let nw := add32 (add32 (sSig1 (w.getD (l - 2) 0)) (w.getD (l - 7) 0))
                    (add32 (sSig0 (w.getD (l - 15) 0)) (w.getD (l - 16) 0))
    expand (w ++ [nw]) n

/-- One compression round, consuming a (schedule word, round constant) pair. -/
def round (st : H8) (wk : Nat × Nat) : H8 :=
  let t1 := add32 st.hh (add32 (bSig1 st.e) (add32 (ch st.e st.f st.g) (add32 wk.2 wk.1)))
  let t2 := add32 (bSig0 st.a) (maj st.a st.b st.c)
  ⟨add32 t1 t2, st.a, st.b, st.c, add32 st.d t1, st.e, st.f, st.g⟩

/-- Compression of one 64-byte block into the chaining value. -/
def compress (h : H8) (block : List Nat) : H8 :=
  let w := expand (bytesToWords block) 48
  let st := (w.zip K).foldl round h
  ⟨add32 h.a st.a, add32 h.b st.b, add32 h.c st.c, add32 h.d st.d,
   add32 h.e st.e, add32 h.f st.f, add32 h.g st.g, add32 h.hh st.hh⟩

/-- Fuel-driven split into 64-byte blocks (fuel `l.length` always suffices;
structural recursion keeps the definition kernel-reducible). -/
def chunksF : Nat → List Nat → List (List Nat)
  | 0, _ => []
  | fuel + 1, l => if l = [] then [] else l.take 64 :: chunksF fuel (l.drop 64)

/-- Split a byte list into 64-byte blocks. -/
def chunks (l : List Nat) : List (List Nat) := chunksF l.length l

/-- Big-endian bytes of one 32-bit word. -/
def word4 (w : Nat) : List Nat := [(w >>> 24) % 256, (w >>> 16) % 256, (w >>> 8) % 256, w % 256]

/-- SHA-256 of a byte list, as the 32-byte digest. This is the function
computed by Go crypto/sha256.Sum256, which certs.go applies to the stored
content. -/
def sha256 (msg : List Nat) : List Nat :=
  let fin := (chunks (pad msg)).foldl compress H0
  word4 fin.a ++ word4 fin.b ++ word4 fin.c ++ word4 fin.d ++
  word4 fin.e ++ word4 fin.f ++ word4 fin.g ++ word4 fin.hh

/-- Interpret a byte list as a base-256 number (for the pigeonhole argument on
the digest space). -/
def ofDigits256 (l : List Nat) : Nat := l.foldr (fun d acc => d + 256 * acc) 0

end SHA256

namespace CertStore

/-- Lowercase hexadecimal digit, as produced by Go hex.EncodeToString. -/
def hexDigit (n : Nat) : Char := if n < 10 then Char.ofNat (48 + n) else Char.ofNat (87 + n)

/-- Hex encoding of a byte list: two lowercase digits per byte. -/
def hexEncode : List Nat → List Char
  | [] => []
  | b :: r => hexDigit (b / 16) :: hexDigit (b % 16) :: hexEncode r

/-- The path computed by haConfig.FilePath: `path.Join(h.Base, hex(sha256(content)))`.
`path.Join` on a clean, non-empty base directory is base + "/" + name. -/
def filePathOf (base : List Char) (content : List Nat) : List Char :=
  base ++ '/' :: hexEncode (SHA256.sha256 content)

/-- The on-disk store under the base directory: an association of paths to file
contents. `os.Stat` is lookup; creating a file appends an entry. -/
structure CertFS where
  files : List (List Char × List Nat)
deriving DecidableEq

/-- Lookup of a path in the store (the `os.Stat` step of FilePath). -/
def lookupFS (fs : CertFS) (p : List Char) : Option (List Nat) :=
  match fs.files.find? (fun e => e.1 = p) with
  | some e => some e.2
  | none => none

/-- haConfig.FilePath (src/haproxy/certs.go): compute the content-addressed
path; if it already exists return it without writing, otherwise create the
file with the full content. Stat/open/write errors are not modelled: the
claim concerns the success behaviour. -/
def FilePath (base : List Char) (fs : CertFS) (content : List Nat) : List Char × CertFS :=
  let p := filePathOf base content
  match lookupFS fs p with
  | some _ => (p, fs)
  | none => (p, ⟨fs.files ++ [(p, content)]⟩)

end CertStore

namespace Consul

/-- Go string comparison (lexicographic over the character sequence), used by
the `sort.Slice` less function in genCfg. -/
def ltChars : List Char → List Char → Bool
  | [], [] => false
  | [], _ :: _ => true
  | _ :: _, [] => false
  | x :: xs, y :: ys => if x < y then true else if y < x then false else ltChars xs ys

/-- TLS material carried in a snapshot: CA bundle, leaf cert and key (PEM byte
slices). -/
structure TLS where
  CAs : List (List Nat)
  Cert : List Nat
  Key : List Nat
deriving DecidableEq

/-- One endpoint of an upstream in a snapshot (consul.UpstreamNode). -/
structure UpstreamNode where
  Host : String
  Port : Int
  Weight : Int
deriving DecidableEq

/-- An upstream in a snapshot (consul.Upstream). Durations are nanoseconds,
as Go time.Duration. -/
structure Upstream where
  Name : String
  LocalBindAddress : String
  LocalBindPort : Int
  Protocol : String
  ConnectTimeout : Int
  ReadTimeout : Int
  TLS : TLS
  Nodes : List UpstreamNode
deriving DecidableEq

/-- The downstream binding in a snapshot (consul.Downstream). -/
structure Downstream where
  LocalBindAddress : String
  LocalBindPort : Int
  TargetAddress : String
  TargetPort : Int
  Protocol : String
  ConnectTimeout : Int
  ReadTimeout : Int
  EnableForwardFor : Bool
  AppNameHeaderName : String
  TLS : TLS
deriving DecidableEq

/-- A configuration snapshot (consul.Config). -/
structure Config where
  ServiceName : String
  ServiceID : String
  Downstream : Downstream
  Upstreams : List Upstream
deriving DecidableEq

/-- One health-query result row for an upstream endpoint, with the fields
genCfg reads: the service and node addresses, the service port, the mesh
weights, and the aggregated health status computed by Checks.AggregatedStatus. -/
structure ServiceEntry where
  serviceAddress : String
  nodeAddress : String
  servicePort : Int
  weightPassing : Int
  weightWarning : Int
  aggStatus : String
deriving DecidableEq

/-- api.HealthPassing. -/
def healthPassing : String := "passing"

/-- api.HealthWarning. -/
def healthWarning : String := "warning"

/-- The watcher-internal upstream record (struct upstream), restricted to the
fields genCfg reads. -/
structure UpstreamW where
  Name : String
  LocalBindAddress : String
  LocalBindPort : Int
  Protocol : String
  ConnectTimeout : Int
  ReadTimeout : Int
  Nodes : List ServiceEntry
deriving DecidableEq

/-- The watcher-internal downstream record (struct downstream). -/
structure DownstreamW where
  LocalBindAddress : String
  LocalBindPort : Int
  Protocol : String
  TargetAddress : String
  TargetPort : Int
  EnableForwardFor : Bool
  AppNameHeaderName : String
  ReadTimeout : Int
  ConnectTimeout : Int
deriving DecidableEq

/-- The watcher shared state read by genCfg. The upstream map is modelled as a
list in arbitrary (map-iteration) order; keys (names) are the map keys. -/
structure WatcherState where
  service : String
  serviceName : String
  downstream : DownstreamW
  certCAs : List (List Nat)
  leafCert : List Nat
  leafKey : List Nat
  upstreams : List UpstreamW
deriving DecidableEq

/-- The endpoint loop body of genCfg: host falls back to the node address;
the weight is the mesh passing weight for a passing aggregated status and the
warning weight for a warning one; any other status skips the endpoint
(`default: continue`), as does a resulting weight of zero. -/
def genCfgNodes : List ServiceEntry → List UpstreamNode
  | [] => []
  | s :: rest =>
    let host := if s.serviceAddress = "" then s.nodeAddress else s.serviceAddress
    if s.aggStatus = healthPassing then
      if s.weightPassing = 0 then genCfgNodes rest
      else ⟨host, s.servicePort, s.weightPassing⟩ :: genCfgNodes rest
    else if s.aggStatus = healthWarning then
      if s.weightWarning = 0 then genCfgNodes rest
      else ⟨host, s.servicePort, s.weightWarning⟩ :: genCfgNodes rest
    else genCfgNodes rest

/-- The ordering genCfg sorts upstreams by: `sort.Slice` with less comparing
names. `nameLe a b` holds when `a` need not come after `b`. -/
def nameLe (a b : Upstream) : Prop := ltChars b.Name.data a.Name.data = false

instance : DecidableRel nameLe := fun a b => by
  unfold nameLe; infer_instance

/-- Watcher.genCfg (src/consul/watcher.go): build the snapshot from shared
state. Each upstream carries the current TLS material; endpoints are filtered
by aggregated health and weight; upstreams are sorted by name. `sort.Slice`
is modelled by insertion sort over the complement of the less function (the
result is a sorted permutation, which determines it up to equal keys; map keys
make names distinct). -/
def genCfg (w : WatcherState) : Config :=
  let tls : TLS := ⟨w.certCAs, w.leafCert, w.leafKey⟩
  let ups := w.upstreams.map (fun up =>
    ({ Name := up.Name
       LocalBindAddress := up.LocalBindAddress
       LocalBindPort := up.LocalBindPort
       Protocol := up.Protocol
       ConnectTimeout := up.ConnectTimeout
       ReadTimeout := up.ReadTimeout
       TLS := tls
       Nodes := genCfgNodes up.Nodes } : Upstream))
  { ServiceName := w.serviceName
    ServiceID := w.service
    Downstream :=
      { LocalBindAddress := w.downstream.LocalBindAddress
        LocalBindPort := w.downstream.LocalBindPort
        TargetAddress := w.downstream.TargetAddress
        TargetPort := w.downstream.TargetPort
        Protocol := w.downstream.Protocol
        ConnectTimeout := w.downstream.ConnectTimeout
        ReadTimeout := w.downstream.ReadTimeout
        EnableForwardFor := w.downstream.EnableForwardFor
        AppNameHeaderName := w.downstream.AppNameHeaderName
        TLS := tls }
    Upstreams := List.insertionSort nameLe ups }

/-- The sidecar-discovery retry delay before retry number `i` (0-based), in
seconds, from Watcher.Run: delay starts at 1 s and doubles after each failed
attempt while it is still below 5 s. -/
def sidecarRetryDelay : Nat → Nat
  | 0 => 1
  | n + 1 =>
    let d := sidecarRetryDelay n
    if d < 5 then d * 2 else d

/-- The discovery loop of Watcher.Run: up to `remaining` further attempts of
findSidecarProxy, the next being attempt number `i` (0-based); after each
failed attempt other than the last, sleep the current delay. The result
carries the found proxy id (if any), the number of attempts made and the list
of sleeps performed, in seconds. `find i` is the outcome of attempt `i`
against the live agent. -/
def runDiscoveryAux (find : Nat → Option String) (i : Nat) :
    Nat → Option String × Nat × List Nat
  | 0 => (none, 0, [])
  | remaining + 1 =>
    match find i with
    | some id => (some id, 1, [])
    | none =>
      if remaining = 0 then (none, 1, [])
      else
        let r := runDiscoveryAux find (i + 1) remaining
        (r.1, r.2.1 + 1, sidecarRetryDelay i :: r.2.2)

/-- Sidecar discovery with the constants of Watcher.Run: maxRetries = 60,
first attempt number 0, initial delay 1 s. -/
def runDiscovery (find : Nat → Option String) : Option String × Nat × List Nat :=
  runDiscoveryAux find 0 60

end Consul

namespace HAState

/-- models.Bind, restricted to the fields the generators set and the renderer
reads. Defaults are Go zero values. -/
structure BindM where
  Name : String := ""
  Address : String := ""
  Port : Option Int := none
  Ssl : Bool := false
  SslCertificate : String := ""
  SslCafile : String := ""
  Verify : String := ""
deriving DecidableEq

/-- models.Frontend, restricted to the fields used. -/
structure FrontendM where
  Name : String := ""
  DefaultBackend : String := ""
  ClientTimeout : Option Int := none
  Mode : String := ""
  Httplog : Bool := false
deriving DecidableEq

/-- models.Filter fields used by the generators. -/
structure FilterM where
  Typ : String := ""
  SpoeEngine : String := ""
  SpoeConfig : String := ""
deriving DecidableEq

/-- models.TCPRequestRule fields used. -/
structure TCPRequestRuleM where
  Action : String := ""
  Cond : String := ""
  CondTest : String := ""
  Typ : String := ""
deriving DecidableEq

/-- state.FrontendFilter: a filter plus an optional tcp-request rule. -/
structure FrontendFilter where
  Filter : FilterM := {}
  Rule : TCPRequestRuleM := {}
deriving DecidableEq

/-- models.LogTarget fields used. -/
structure LogTargetM where
  Address : String := ""
  Facility : String := ""
  Format : String := ""
deriving DecidableEq

/-- models.Balance. -/
structure BalanceM where
  Algorithm : Option String := none
deriving DecidableEq

/-- models.Forwardfor. -/
structure ForwardforM where
  Enabled : Option String := none
deriving DecidableEq

/-- models.HTTPRequestRule fields used. -/
structure HTTPRequestRuleM where
  Typ : String := ""
  HdrName : String := ""
  HdrFormat : String := ""
deriving DecidableEq

/-- models.Server, restricted to the fields the generators set. -/
structure ServerM where
  Name : String := ""
  Address : String := ""
  Port : Option Int := none
  Weight : Option Int := none
  Ssl : String := ""
  SslCertificate : String := ""
  SslCafile : String := ""
  Verify : String := ""
  Maintenance : String := ""
  Check : String := ""
  Inter : Option Int := none
  Fastinter : Option Int := none
  Downinter : Option Int := none
  Rise : Option Int := none
  Fall : Option Int := none
  Observe : String := ""
  ErrorLimit : Int := 0
  OnError : String := ""
deriving DecidableEq

/-- models.Backend, restricted to the fields used. -/
structure BackendM where
  Name : String := ""
  ServerTimeout : Option Int := none
  ConnectTimeout : Option Int := none
  Mode : String := ""
  Forwardfor : Option ForwardforM := none
  Balance : Option BalanceM := none
  Retries : Option Int := none
deriving DecidableEq

/-- state.Frontend: the models frontend plus bind, filters and log target. -/
structure Frontend where
  Frontend : FrontendM := {}
  Bind : BindM := {}
  FilterCompression : Option FrontendFilter := none
  FilterSpoe : Option FrontendFilter := none
  LogTarget : Option LogTargetM := none
deriving DecidableEq

/-- state.Backend: the models backend plus rules, servers and log target. -/
structure Backend where
  Backend : BackendM := {}
  HTTPRequestRules : List HTTPRequestRuleM := []
  Servers : List ServerM := []
  LogTarget : Option LogTargetM := none
deriving DecidableEq

/-- state.State: ordered frontends and backends. The Go zero value is a pair
of empty (nil) lists; state equality is structural. -/
structure State where
  Frontends : List Frontend := []
  Backends : List Backend := []
deriving DecidableEq

/-- state.Options as built by HAProxy.watch. -/
structure Options where
  EnableIntentions : Bool := false
  LogRequests : Bool := false
  LogSocket : String := ""
  SPOEConfigPath : String := ""
  SPOESocket : String := ""
deriving DecidableEq

/-- Go Duration.Milliseconds: nanoseconds divided by one million (truncated). -/
def durationMs (d : Int) : Int := d / 1000000

/-- The log target attached when request logging is on and a log socket is
configured. -/
def mkLogTarget (opts : Options) : Option LogTargetM :=
  if opts.LogRequests ∧ opts.LogSocket ≠ "" then
    some { Address := opts.LogSocket, Facility := "local0", Format := "rfc5424" }
  else none

/-- The frontend built by generateUpstream (src/haproxy/state/upstream.go):
no TLS on the bind, mode from the upstream protocol, compression filter in
HTTP mode, optional log target. -/
def upstreamFrontend (opts : Options) (cfg : Consul.Upstream) : Frontend :=
  let feMode := if cfg.Protocol = "http" then "http" else "tcp"
  { Frontend :=
      { Name := "front_" ++ cfg.Name
        DefaultBackend := "back_" ++ cfg.Name
        ClientTimeout := some (durationMs cfg.ReadTimeout)
        Mode := feMode
        Httplog := opts.LogRequests }
    Bind :=
      { Name := "front_" ++ cfg.Name ++ "_bind"
        Address := cfg.LocalBindAddress
        Port := some cfg.LocalBindPort }
    FilterCompression :=
      if feMode = "http" then some { Filter := { Typ := "compression" } } else none
    LogTarget := mkLogTarget opts }

/-- The per-endpoint server record built by generateUpstreamServers: client
TLS with the stored cert and CA paths, verify none, and the circuit-breaker
health-check parameters. `i` is the loop index, naming the server. -/
def mkUpstreamServer (crtPath caPath : String) (i : Nat) (node : Consul.UpstreamNode) : ServerM :=
  { Name := "srv_" ++ toString i
    Address := node.Host
    Port := some node.Port
    Weight := some node.Weight
    Ssl := "enabled"
    SslCertificate := crtPath
    SslCafile := caPath
    Verify := "none"
    Maintenance := "disabled"
    Check := "enabled"
    Inter := some 300000
    Fastinter := some 2000
    Downinter := some 2000
    Rise := some 1
    Fall := some 1
    Observe := "layer4"
    ErrorLimit := 1
    OnError := "mark-down" }

/-- The indexed loop of generateUpstreamServers over cfg.Nodes. -/
def serversFrom (crtPath caPath : String) (i : Nat) : List Consul.UpstreamNode → List ServerM
  | [] => []
  | n :: rest => mkUpstreamServer crtPath caPath i n :: serversFrom crtPath caPath (i + 1) rest

/-- generateUpstreamServers: fetch the content-addressed cert paths, then one
server per endpoint in snapshot order. The certificate store is supplied as a
function from TLS material to (caPath, crtPath), the success behaviour of
haConfig.CertsPath. -/
def generateUpstreamServers (certsPath : Consul.TLS → String × String)
    (cfg : Consul.Upstream) : List ServerM :=
  let paths := certsPath cfg.TLS
  serversFrom paths.2 paths.1 0 cfg.Nodes

/-- The backend built by generateUpstream: leastconn balancing, timeouts from
the snapshot, servers from generateUpstreamServers, and retries set to
len(servers) - 1 floored at 1. -/
def upstreamBackend (opts : Options) (certsPath : Consul.TLS → String × String)
    (cfg : Consul.Upstream) : Backend :=
  let beMode := if cfg.Protocol = "http" then "http" else "tcp"
  let servers := generateUpstreamServers certsPath cfg
  let retries : Int := if (servers.length : Int) - 1 < 1 then 1 else (servers.length : Int) - 1
  { Backend :=
      { Name := "back_" ++ cfg.Name
        ServerTimeout := some (durationMs cfg.ReadTimeout)
        ConnectTimeout := some (durationMs cfg.ConnectTimeout)
        Balance := some { Algorithm := some "leastconn" }
        Mode := beMode
        Retries := some retries }
    Servers := servers
    LogTarget := mkLogTarget opts }

/-- generateUpstream: append the upstream frontend and backend to the state
under construction. The previous state argument is threaded through as in the
source, where it is not consulted. -/
def generateUpstream (opts : Options) (certsPath : Consul.TLS → String × String)
    (cfg : Consul.Upstream) (_oldState : State) (newState : State) : State :=
  { newState with
    Frontends := newState.Frontends ++ [upstreamFrontend opts cfg]
    Backends := newState.Backends ++ [upstreamBackend opts certsPath cfg] }

/-- The downstream frontend built by generateDownstream: TLS-terminating bind
with the stored cert paths, compression filter, optional SPOE intentions
filter with the reject-unless-authorized tcp-request rule, optional log
target. -/
def downstreamFrontend (opts : Options) (certsPath : Consul.TLS → String × String)
    (cfg : Consul.Downstream) : Frontend :=
  let feMode := if cfg.Protocol = "tcp" then "tcp" else "http"
  let paths := certsPath cfg.TLS
  { Frontend :=
      { Name := "front_downstream"
        DefaultBackend := "back_downstream"
        ClientTimeout := some (durationMs cfg.ReadTimeout)
        Mode := feMode
        Httplog := opts.LogRequests }
    Bind :=
      { Name := "front_downstream_bind"
        Address := cfg.LocalBindAddress
        Port := some cfg.LocalBindPort
        Ssl := true
        SslCertificate := paths.2
        SslCafile := paths.1
        Verify := "none" }
    FilterCompression := some { Filter := { Typ := "compression" } }
    FilterSpoe :=
      if opts.EnableIntentions then
        some { Filter := { Typ := "spoe", SpoeEngine := "intentions", SpoeConfig := opts.SPOEConfigPath }
               Rule := { Action := "reject", Cond := "unless"
                         CondTest := "\x7b var(sess.connect.auth) -m int eq 1 \x7d"
                         Typ := "content" } }
      else none
    LogTarget := mkLogTarget opts }

/-- The downstream backend built by generateDownstream: roundrobin balancing,
a single server at the local application target with fast-failover health
checking, optional forward-for in HTTP mode, optional app-name header rule. -/
def downstreamBackend (opts : Options) (cfg : Consul.Downstream) : Backend :=
  let beMode := if cfg.Protocol = "tcp" then "tcp" else "http"
  { Backend :=
      { Name := "back_downstream"
        ServerTimeout := some (durationMs cfg.ReadTimeout)
        ConnectTimeout := some (durationMs cfg.ConnectTimeout)
        Mode := beMode
        Forwardfor :=
          if cfg.EnableForwardFor ∧ beMode = "http" then
            some { Enabled := some "enabled" }
          else none
        Balance := some { Algorithm := some "roundrobin" } }
    Servers :=
      [{ Name := "downstream_node"
         Address := cfg.TargetAddress
         Port := some cfg.TargetPort
         Check := "enabled"
         Inter := some 300000
         Fastinter := some 2000
         Downinter := some 2000
         Rise := some 1
         Fall := some 1
         Observe := "layer4"
         ErrorLimit := 1
         OnError := "mark-down"
         Maintenance := "disabled" }]
    HTTPRequestRules :=
      if cfg.AppNameHeaderName ≠ "" ∧ beMode = "http" then
        [{ Typ := "add-header", HdrName := cfg.AppNameHeaderName
           HdrFormat := "%[var(sess.connect.source_app)]" }]
      else []
    LogTarget := mkLogTarget opts }

/-- generateDownstream: append the downstream frontend and backend. -/
def generateDownstream (opts : Options) (certsPath : Consul.TLS → String × String)
    (cfg : Consul.Downstream) (st : State) : State :=
  { st with
    Frontends := st.Frontends ++ [downstreamFrontend opts certsPath cfg]
    Backends := st.Backends ++ [downstreamBackend opts cfg] }

/-- Modelled from the spec: the state generator top level state.Generate is
not among the provided sources (only generateDownstream and generateUpstream
are). Per the spec it is a pure transform building the downstream frontend
and backend and then, for each upstream of the snapshot, the upstream
frontend and backend; the previous state is passed through to the per-part
generators. -/
def Generate (opts : Options) (certsPath : Consul.TLS → String × String)
    (prev : State) (cfg : Consul.Config) : State :=
  cfg.Upstreams.foldl (fun st up => generateUpstream opts certsPath up prev st)
    (generateDownstream opts certsPath cfg.Downstream {})

end HAState

namespace Loop

/-- The input that ended a throttle window of HAProxy.watch: either a new
snapshot from the configuration channel (the last one received in the window
wins) or a retry tick. -/
inductive RoundInput where
  | snapshot (cfg : Consul.Config)
  | retry
deriving DecidableEq

/-- The loop-local state of HAProxy.watch across rounds. -/
structure LoopState where
  currentState : HAState.State := {}
  currentConfig : Consul.Config
  started : Bool := false
  ready : Bool := false
deriving DecidableEq

/-- What one round did: how often the renderer and the writer were invoked,
whether the apply succeeded, whether a retry was scheduled, and whether the
readiness channel was closed this round. -/
structure RoundEffects where
  renderCount : Nat := 0
  applyCount : Nat := 0
  applySucceeded : Bool := false
  retryScheduled : Bool := false
  readyClosed : Bool := false
deriving DecidableEq

/-- One round of the convergence loop HAProxy.watch (the body after the
throttle window, with the proxy already started). `gen` is state.Generate
applied to the fixed options and haConfig (none means it returned an error);
`render` is Renderer.Render (none means error); `applyCfg` is
ConfigWriter.ApplyConfig (false means error). The round updates the loop
state and reports its effects:
  - a generate error drops the round;
  - a new state structurally equal to the last applied one does nothing;
  - a render or apply error schedules a retry;
  - a successful apply closes the readiness channel once and records the
    state as last applied. -/
def watchRound (gen : Consul.Config → HAState.State → Option HAState.State)
    (render : HAState.State → Option String) (applyCfg : String → Bool)
    (ls : LoopState) (input : RoundInput) : LoopState × RoundEffects :=
  let ls := match input with
    | .snapshot c => { ls with currentConfig := c }
    | .retry => ls
  match gen ls.currentConfig ls.currentState with
  | none => (ls, {})
  | some newState =>
    if ls.currentState = newState then (ls, {})
    else match render newState with
      | none => (ls, { renderCount := 1, retryScheduled := true })
      | some config =>
        if applyCfg config then
          ({ ls with currentState := newState, ready := true },
           { renderCount := 1, applyCount := 1, applySucceeded := true
             readyClosed := ls.ready = false })
        else (ls, { renderCount := 1, applyCount := 1, retryScheduled := true })

end Loop

namespace Writer

/-- The part of the filesystem ApplyConfig touches: the installed config file
and the temporary `.new` file next to it (none = absent). -/
structure FS where
  config : Option String := none
  tmp : Option String := none
deriving DecidableEq

/-- The errors ApplyConfig can return; the validation error carries the
combined output captured from the check-mode run of the proxy binary. -/
inductive ApplyErr where
  | writeTemp
  | validation (output : String)
  | rename
  | kill
deriving DecidableEq

/-- The environment of one ApplyConfig call: whether the temp-file write, the
rename and the SIGUSR2 delivery succeed, and the outcome of running
`haproxy -c -f <tmp>` on the written content (none = exit 0, some out =
non-zero exit with captured output). -/
structure Env where
  writeOk : Bool := true
  validate : String → Option String := fun _ => none
  renameOk : Bool := true
  killOk : Bool := true

/-- ConfigWriter.ApplyConfig: write the text to `<config>.new`, validate it
out of process, atomically rename over the installed file, then signal
SIGUSR2 to the master PID. Returns the result, the filesystem afterwards, and
whether the reload signal was delivered. -/
def ApplyConfig (env : Env) (fs : FS) (config : String) :
    Except ApplyErr Unit × FS × Bool :=
  if env.writeOk = false then (.error .writeTemp, fs, false)
  else
    let fs1 : FS := { fs with tmp := some config }
    match env.validate config with
    | some output => (.error (.validation output), { fs1 with tmp := none }, false)
    | none =>
      if env.renameOk = false then (.error .rename, fs1, false)
      else
        let fs2 : FS := { config := some config, tmp := none }
        if env.killOk = false then (.error .kill, fs2, false)
        else (.ok (), fs2, true)

end Writer

namespace Cmd

/-- strings.Split on a single-character separator, over Go strings modelled
as character lists. Splitting the empty string yields one empty field. -/
def splitCh (sep : Char) : List Char → List (List Char)
  | [] => [[]]
  | c :: rest =>
    if c = sep then [] :: splitCh sep rest
    else match splitCh sep rest with
      | [] => [[c]]
      | g :: gs => (c :: g) :: gs

/-- Decimal value of a digit list (most significant first). -/
def decVal (l : List Char) : Nat := l.foldl (fun acc c => acc * 10 + (c.toNat - 48)) 0

/-- The longest run of digits at the head of a character list. -/
def digitRun : List Char → List Char
  | [] => []
  | c :: rest => if c.isDigit then c :: digitRun rest else []

/-- fmt.Sscanf with format %d into an int, as compareVersion uses it on a
version component: skip leading spaces, then an optional sign and a digit
run; if no digits follow, scanning fails and the target keeps its zero
value. -/
def sscanfInt (l : List Char) : Int :=
  match l.dropWhile (fun c => c = ' ') with
  | [] => 0
  | c :: rest =>
    if c = '-' then
      let d := digitRun rest
      if d = [] then 0 else -(decVal d : Int)
    else
      let d := digitRun (c :: rest)
      if d = [] then 0 else (decVal d : Int)

/-- The component-comparison loop of compareVersion: the first numerically
differing component decides. -/
def cmpComponents : List (List Char) → List (List Char) → Int
  | [], _ => 0
  | _, [] => 0
  | x :: xs, y :: ys =>
    let ai := sscanfInt x
    let bi := sscanfInt y
    if ai > bi then 1
    else if ai < bi then -1
    else cmpComponents xs ys

/-- compareVersion (src/haproxy/config.go): split both versions on dots,
fail if either has fewer than two components, pad the shorter list with
single-space components (which scan as 0), then compare component-wise. -/
def compareVersion (v1 v2 : List Char) : Option Int :=
  let a := splitCh '.' v1
  let b := splitCh '.' v2
  if a.length < 2 then none
  else if b.length < 2 then none
  else
    let a2 := a ++ List.replicate (b.length - a.length) [' ']
    let b2 := b ++ List.replicate (a.length - b.length) [' ']
    some (cmpComponents a2 b2)

/-- The version-bound logic of CheckEnvironment.ensureVersion with min "2.0"
and max "4.0": true exactly when neither comparison errors, the version is
not below the minimum and not above the maximum. -/
def versionAccept (v : List Char) : Bool :=
  match compareVersion v ['2', '.', '0'] with
  | none => false
  | some r1 =>
    if r1 < 0 then false
    else match compareVersion v ['4', '.', '0'] with
      | none => false
      | some r2 => if r2 > 0 then false else true

end Cmd

namespace Authz

/-- The cache TTL of SPOEHandler, one second in nanoseconds. -/
def cacheTTL : Nat := 1000000000

/-- One authorization cache entry: the decision, the instant it was stamped
(nanoseconds since the zero instant; 0 is the zero time.Time), and whether
the in-flight fetch has completed (the completion channel is closed). -/
structure CacheEntry where
  value : Bool := false
  at_ : Nat := 0
  resolved : Bool := false
deriving DecidableEq

/-- The authorization cache, keyed by URI. -/
def Cache := String → Option CacheEntry

/-- The entry-or-refresh decision of isAuthorized: a fetch is started when
there is no entry for the URI or the entry is older than the TTL. -/
def needsFetch (c : Cache) (uri : String) (now : Nat) : Bool :=
  match c uri with
  | none => true
  | some e => if now - e.at_ > cacheTTL then true else false

/-- The cache after the lookup step of isAuthorized: when a fetch is needed a
fresh pending entry stamped `now` replaces the old one; otherwise the cache
is unchanged. -/
def lookupStep (c : Cache) (uri : String) (now : Nat) : Cache :=
  if needsFetch c uri now then
    fun u => if u = uri then some { at_ := now } else c u
  else c

/-- The completion of the asynchronous fetch goroutine: on error the entry is
stored with value false and its stamp forced to the zero instant; on success
the fetched decision is stored. Either way the completion channel is closed,
releasing the waiters. -/
def fetchComplete (c : Cache) (uri : String) (result : Except String Bool) : Cache :=
  fun u =>
    if u = uri then
      match c uri with
      | none => none
      | some e =>
        match result with
        | .error _ => some { e with value := false, at_ := 0, resolved := true }
        | .ok auth => some { e with value := auth, resolved := true }
    else c u

/-- What a caller that waited on the completion channel receives: the stored
decision (false when no entry is present). -/
def callerResult (c : Cache) (uri : String) : Bool :=
  match c uri with
  | none => false
  | some e => e.value

end Authz

namespace Bootstrap

/-- The outcome of os.ReadFile: the file is absent (os.IsNotExist), reading
failed for another reason, or the contents were read. -/
inductive ReadResult where
  | missing
  | failed (msg : String)
  | ok (data : String)

/-- The fields of EnvoyBootstrapConfig the parser fills: the node identity
and the raw dynamic_resources JSON, plus the token extracted from it. -/
structure EnvoyBootstrapConfig where
  nodeID : String := ""
  nodeCluster : String := ""
  dynamicResources : String := ""
  consulToken : String := ""
deriving DecidableEq

/-- ParseEnvoyBootstrap (src/utils/envoy_bootstrap.go): an empty path and a
missing file both yield no config and no error; a read failure or a JSON
unmarshal failure yield an error; otherwise the parsed config is returned
with the token extracted from its dynamic_resources section. `readFile` is
the filesystem, `unmarshal` the JSON decoder (none = parse error) and
`extractToken` the total extractTokenFromJSON helper. -/
def ParseEnvoyBootstrap (readFile : String → ReadResult)
    (unmarshal : String → Option EnvoyBootstrapConfig)
    (extractToken : String → String) (path : String) :
    Except String (Option EnvoyBootstrapConfig) :=
  if path = "" then .ok none
  else match readFile path with
    | .missing => .ok none
    | .failed msg => .error ("failed to read envoy bootstrap file: " ++ msg)
    | .ok data =>
      match unmarshal data with
      | none => .error "failed to parse envoy bootstrap JSON"
      | some cfg => .ok (some { cfg with consulToken := extractToken cfg.dynamicResources })

end Bootstrap

namespace Consul

/-- The host an endpoint is exposed under: the service address, falling back
to the node address when the service address is empty. -/
def hostOf (s : ServiceEntry) : String :=
  if s.serviceAddress = "" then s.nodeAddress else s.serviceAddress

/-- Spec-side endpoint selection, written from the claim: an endpoint is
included exactly when its aggregated health is passing or warning and the
corresponding mesh weight is non-zero, and it carries that weight. Compared
against the loop of genCfg. -/
def specEndpoint (s : ServiceEntry) : Option UpstreamNode :=
  if s.aggStatus = healthPassing ∧ s.weightPassing ≠ 0 then
    some ⟨hostOf s, s.servicePort, s.weightPassing⟩
  else if s.aggStatus = healthWarning ∧ s.weightWarning ≠ 0 then
    some ⟨hostOf s, s.servicePort, s.weightWarning⟩
  else none

end Consul

namespace Fixtures

/-- A concrete snapshot with an empty upstream list, used by witnesses. -/
def cfg0 : Consul.Config :=
  { ServiceName := "web"
    ServiceID := "web-1"
    Downstream :=
      { LocalBindAddress := "0.0.0.0", LocalBindPort := 20000
        TargetAddress := "127.0.0.1", TargetPort := 8080, Protocol := "http"
        ConnectTimeout := 30000000000, ReadTimeout := 60000000000
        EnableForwardFor := false, AppNameHeaderName := ""
        TLS := ⟨[], [], []⟩ }
    Upstreams := [] }

/-- A non-empty declarative state, distinct from the zero state. -/
def stB : HAState.State := { Backends := [{}] }

/-- A generator that always produces `stB`. -/
def genB : Consul.Config → HAState.State → Option HAState.State := fun _ _ => some stB

/-- A renderer that always succeeds. -/
def render1 : HAState.State → Option String := fun _ => some "rendered"

/-- A writer that always succeeds. -/
def apply1 : String → Bool := fun _ => true

/-- Loop state before the first apply. -/
def ls0 : Loop.LoopState := { currentConfig := cfg0 }

/-- Loop state whose last applied state is `stB`. -/
def ls1 : Loop.LoopState := { currentState := stB, currentConfig := cfg0 }

/-- A passing endpoint with weight 2. -/
def se1 : Consul.ServiceEntry :=
  { serviceAddress := "10.0.0.1", nodeAddress := "n1", servicePort := 5432
    weightPassing := 2, weightWarning := 1, aggStatus := "passing" }

/-- A critical endpoint, to be dropped. -/
def se2 : Consul.ServiceEntry :=
  { serviceAddress := "10.0.0.2", nodeAddress := "n2", servicePort := 5432
    weightPassing := 1, weightWarning := 1, aggStatus := "critical" }

/-- A watcher-internal upstream with one passing and one critical endpoint. -/
def upw : Consul.UpstreamW :=
  { Name := "service_db", LocalBindAddress := "127.0.0.1", LocalBindPort := 5432
    Protocol := "tcp", ConnectTimeout := 30000000000, ReadTimeout := 60000000000
    Nodes := [se1, se2] }

/-- A watcher state holding the single upstream `upw`. -/
def w0 : Consul.WatcherState :=
  { service := "web-1", serviceName := "web"
    downstream :=
      { LocalBindAddress := "0.0.0.0", LocalBindPort := 20000, Protocol := "http"
        TargetAddress := "127.0.0.1", TargetPort := 8080, EnableForwardFor := false
        AppNameHeaderName := "", ReadTimeout := 60000000000
        ConnectTimeout := 30000000000 }
    certCAs := [], leafCert := [], leafKey := [], upstreams := [upw] }

/-- The snapshot upstream genCfg builds from `upw` in `w0`. -/
def u0 : Consul.Upstream :=
  { Name := "service_db", LocalBindAddress := "127.0.0.1", LocalBindPort := 5432
    Protocol := "tcp", ConnectTimeout := 30000000000, ReadTimeout := 60000000000
    TLS := ⟨[], [], []⟩
    Nodes := [⟨"10.0.0.1", 5432, 2⟩] }

end Fixtures

/-! Helper lemmas, followed by one theorem per claim (with witnesses where a
theorem carries hypotheses). -/

theorem serversFrom_length (crtPath caPath : String) :
    ∀ (i : Nat) (ns : List Consul.UpstreamNode),
    (HAState.serversFrom crtPath caPath i ns).length = ns.length := by
  intro i ns
  induction ns generalizing i with
  | nil => rfl
  | cons n rest ih => simp [HAState.serversFrom, ih]

theorem generateUpstreamServers_length
    (certsPath : Consul.TLS → String × String) (cfg : Consul.Upstream) :
    (HAState.generateUpstreamServers certsPath cfg).length = cfg.Nodes.length := by
  simp [HAState.generateUpstreamServers, serversFrom_length]

/-- C6: the retries of every generated upstream backend equal
max(1, number of servers - 1): 1 for zero, one or two servers, n - 1 for
n >= 2 servers. -/
theorem upstream_backend_retries
    (opts : HAState.Options) (certsPath : Consul.TLS → String × String)
    (cfg : Consul.Upstream) (oldState st : HAState.State) :
    (HAState.generateUpstream opts certsPath cfg oldState st).Backends.getLast?
        = some (HAState.upstreamBackend opts certsPath cfg)
    ∧ (HAState.upstreamBackend opts certsPath cfg).Backend.Retries
        = some (max 1 ((cfg.Nodes.length : Int) - 1))
    ∧ (cfg.Nodes.length ≤ 2 →
        (HAState.upstreamBackend opts certsPath cfg).Backend.Retries = some 1)
    ∧ (2 ≤ cfg.Nodes.length →
        (HAState.upstreamBackend opts certsPath cfg).Backend.Retries
          = some ((cfg.Nodes.length : Int) - 1)) := by
  refine ⟨?_, ?_, ?_, ?_⟩
  · simp [HAState.generateUpstream, List.getLast?_concat]
  · simp only [HAState.upstreamBackend, generateUpstreamServers_length]
    split <;> rename_i h <;> simp only [Option.some.injEq] <;> omega
  · intro h
    simp only [HAState.upstreamBackend, generateUpstreamServers_length]
    split <;> rename_i h2 <;> simp only [Option.some.injEq] <;> omega
  · intro h
    simp only [HAState.upstreamBackend, generateUpstreamServers_length]
    split <;> rename_i h2 <;> simp only [Option.some.injEq] <;> omega

/-- Witness for the retries theorem at a two-server upstream, where both the
floor case and the n - 1 case apply and agree. -/
theorem upstream_backend_retries_witness :
    (HAState.upstreamBackend {} (fun _ => ("ca", "crt"))
        { Name := "svc", LocalBindAddress := "127.0.0.1", LocalBindPort := 9000
          Protocol := "http", ConnectTimeout := 0, ReadTimeout := 0
          TLS := ⟨[], [], []⟩
          Nodes := [⟨"10.0.0.1", 80, 1⟩, ⟨"10.0.0.2", 80, 1⟩] }).Backend.Retries = some 1 :=
  (upstream_backend_retries {} (fun _ => ("ca", "crt")) _ {} {}).2.2.1 (by decide)

/-- C7: the sidecar discovery loop gives up as unrecoverable after exactly 60
failed attempts, but its backoff is not capped at 5 s: the slept delays are
1, 2, 4 and then 8 seconds for every remaining wait, so from the fourth wait
on the delay exceeds the documented 5 s cap. -/
theorem sidecar_retry_schedule :
    (Consul.runDiscovery (fun _ => none)).1 = none
    ∧ (Consul.runDiscovery (fun _ => none)).2.1 = 60
    ∧ (Consul.runDiscovery (fun _ => none)).2.2
        = [1, 2, 4] ++ List.replicate 56 8
    ∧ Consul.sidecarRetryDelay 3 = 8 := by
  refine ⟨?_, ?_, ?_, ?_⟩ <;> decide

/-- C9: when the in-flight authorization fetch for a URI fails, the cache
entry is stored with value false and the zero stamp, the waiting caller
receives a negative decision, and any lookup at an instant more than the TTL
past the zero instant (every real clock reading) starts a fresh fetch. -/
theorem authz_error_zero_stamp
    (c : Authz.Cache) (uri : String) (now : Nat) (e : String)
    (hfetch : Authz.needsFetch c uri now = true) :
    (Authz.fetchComplete (Authz.lookupStep c uri now) uri (.error e)) uri
        = some { value := false, at_ := 0, resolved := true }
    ∧ Authz.callerResult (Authz.fetchComplete (Authz.lookupStep c uri now) uri (.error e)) uri
        = false
    ∧ (∀ later, Authz.cacheTTL < later →
        Authz.needsFetch (Authz.fetchComplete (Authz.lookupStep c uri now) uri (.error e))
          uri later = true) := by
  have hc1 : (Authz.lookupStep c uri now) uri = some { at_ := now } := by
    simp [Authz.lookupStep, hfetch]
  refine ⟨?_, ?_, ?_⟩
  · simp [Authz.fetchComplete, hc1]
  · simp [Authz.callerResult, Authz.fetchComplete, hc1]
  · intro later hlater
    simp [Authz.needsFetch, Authz.fetchComplete, hc1]
    omega

/-- Witness: an empty cache forces a fetch at time 0; after a failed fetch
the entry is the zero-stamped negative one and a lookup one tick past the TTL
refetches. -/
theorem authz_error_zero_stamp_witness :
    (Authz.fetchComplete (Authz.lookupStep (fun _ => none) "spiffe" 0) "spiffe"
        (.error "connection refused")) "spiffe"
      = some { value := false, at_ := 0, resolved := true }
    ∧ Authz.needsFetch
        (Authz.fetchComplete (Authz.lookupStep (fun _ => none) "spiffe" 0) "spiffe"
          (.error "connection refused"))
        "spiffe" (Authz.cacheTTL + 1) = true :=
  ⟨(authz_error_zero_stamp (fun _ => none) "spiffe" 0 "connection refused" rfl).1,
   (authz_error_zero_stamp (fun _ => none) "spiffe" 0 "connection refused" rfl).2.2
     (Authz.cacheTTL + 1) (Nat.lt_succ_self _)⟩

/-- C10: parsing the bootstrap file never fails when the file is absent: the
empty path and a missing file both give no config and no error, and an error
is returned only when the file was unreadable for another reason or its JSON
did not parse. -/
theorem bootstrap_parse_disposition
    (rf : String → Bootstrap.ReadResult)
    (um : String → Option Bootstrap.EnvoyBootstrapConfig)
    (et : String → String) (path : String) :
    (Bootstrap.ParseEnvoyBootstrap rf um et "" = .ok none)
    ∧ (rf path = .missing → Bootstrap.ParseEnvoyBootstrap rf um et path = .ok none)
    ∧ (∀ e, Bootstrap.ParseEnvoyBootstrap rf um et path = .error e →
        (∃ msg, rf path = .failed msg)
        ∨ (∃ data, rf path = .ok data ∧ um data = none)) := by
  refine ⟨by simp [Bootstrap.ParseEnvoyBootstrap], ?_, ?_⟩
  · intro hmiss
    by_cases hp : path = ""
    · simp [Bootstrap.ParseEnvoyBootstrap, hp]
    · simp [Bootstrap.ParseEnvoyBootstrap, hp, hmiss]
  · intro e herr
    by_cases hp : path = ""
    · simp [Bootstrap.ParseEnvoyBootstrap, hp] at herr
    · rcases hr : rf path with _ | msg | data
      · simp [Bootstrap.ParseEnvoyBootstrap, hp, hr] at herr
      · exact Or.inl ⟨msg, rfl⟩
      · rcases hu : um data with _ | cfg
        · exact Or.inr ⟨data, rfl, hu⟩
        · simp [Bootstrap.ParseEnvoyBootstrap, hp, hr, hu] at herr

/-- Witness: a missing file parses to no config and no error; an unparsable
file is among the only error causes. -/
theorem bootstrap_parse_disposition_witness :
    Bootstrap.ParseEnvoyBootstrap (fun _ => .missing) (fun _ => none) (fun _ => "")
        "/secrets/envoy_bootstrap.json" = .ok none
    ∧ ((∃ msg, (fun _ => Bootstrap.ReadResult.ok "not json") "/p"
          = Bootstrap.ReadResult.failed msg)
       ∨ (∃ data, (fun _ => Bootstrap.ReadResult.ok "not json") "/p"
            = Bootstrap.ReadResult.ok data
          ∧ (fun _ => (none : Option Bootstrap.EnvoyBootstrapConfig)) data = none)) :=
  ⟨(bootstrap_parse_disposition (fun _ => .missing) (fun _ => none) (fun _ => "")
      "/secrets/envoy_bootstrap.json").2.1 rfl,
   (bootstrap_parse_disposition (fun _ => .ok "not json") (fun _ => none) (fun _ => "")
      "/p").2.2 "failed to parse envoy bootstrap JSON" rfl⟩

/-- C3 counterexample: an apply can fail with the installed file already
changed. When the reload signal cannot be delivered (the kill step fails
after the rename has installed the file), ApplyConfig returns an error yet
the installed config equals the new text, not the previous one. This refutes
the dichotomy "fails with the installed config file unchanged, or succeeds". -/
theorem apply_config_error_after_install :
    (Writer.ApplyConfig { killOk := false } { config := some "old config" } "new config").1
        = .error .kill
    ∧ (Writer.ApplyConfig { killOk := false } { config := some "old config" } "new config").2.1.config
        = some "new config"
    ∧ (Writer.ApplyConfig { killOk := false } { config := some "old config" } "new config").2.1.config
        ≠ ({ config := some "old config" } : Writer.FS).config := by
  refine ⟨rfl, rfl, by simp [Writer.ApplyConfig]⟩

/-- C3 amended: an apply either succeeds with the installed file equal to the
applied text and the reload signal sent, or fails; every failure except a
failure of the reload signal itself leaves the installed file unchanged
(the signal is sent after the rename, so that failure leaves the new text
installed); a validation failure removes the temporary file and the error
carries the captured validator output. -/
theorem apply_config_disposition
    (env : Writer.Env) (fs : Writer.FS) (config : String) :
    ((Writer.ApplyConfig env fs config).1 = .ok () →
      (Writer.ApplyConfig env fs config).2.1.config = some config
      ∧ (Writer.ApplyConfig env fs config).2.2 = true)
    ∧ (∀ e, (Writer.ApplyConfig env fs config).1 = .error e →
        ((Writer.ApplyConfig env fs config).2.1.config = fs.config
          ∧ (Writer.ApplyConfig env fs config).2.2 = false)
        ∨ (e = .kill ∧ (Writer.ApplyConfig env fs config).2.1.config = some config))
    ∧ (∀ output, env.writeOk = true → env.validate config = some output →
        (Writer.ApplyConfig env fs config).1 = .error (.validation output)
        ∧ (Writer.ApplyConfig env fs config).2.1.tmp = none) := by
  unfold Writer.ApplyConfig
  rcases hw : env.writeOk with _ | _
  · simp
  · rcases hv : env.validate config with _ | output
    · rcases hr : env.renameOk with _ | _
      · simp
      · rcases hk : env.killOk with _ | _
        · simp
        · simp
    · simp

/-- Witness: with a cooperative environment the apply succeeds, installs the
text and signals; with a failing validator it fails carrying the output and
removes the temporary file. -/
theorem apply_config_disposition_witness :
    ((Writer.ApplyConfig {} {} "cfg").2.1.config = some "cfg"
      ∧ (Writer.ApplyConfig {} {} "cfg").2.2 = true)
    ∧ (((Writer.ApplyConfig { killOk := false } {} "cfg").2.1.config
          = ({} : Writer.FS).config
        ∧ (Writer.ApplyConfig { killOk := false } {} "cfg").2.2 = false)
       ∨ (Writer.ApplyErr.kill = .kill
          ∧ (Writer.ApplyConfig { killOk := false } {} "cfg").2.1.config = some "cfg"))
    ∧ ((Writer.ApplyConfig { validate := fun _ => some "parse error" } {} "cfg").1
          = .error (.validation "parse error")
       ∧ (Writer.ApplyConfig { validate := fun _ => some "parse error" } {} "cfg").2.1.tmp
          = none) :=
  ⟨(apply_config_disposition {} {} "cfg").1 rfl,
   (apply_config_disposition { killOk := false } {} "cfg").2.1 .kill rfl,
   (apply_config_disposition { validate := fun _ => some "parse error" } {} "cfg").2.2
     "parse error" rfl rfl⟩

/-- A round whose generated state equals the current one does nothing: no
render, no apply, state unchanged. -/
theorem watchRound_skip
    (gen : Consul.Config → HAState.State → Option HAState.State)
    (render : HAState.State → Option String) (applyCfg : String → Bool)
    (ls : Loop.LoopState) (cfg : Consul.Config)
    (hgen : gen cfg ls.currentState = some ls.currentState) :
    (Loop.watchRound gen render applyCfg ls (.snapshot cfg)).2.renderCount = 0
    ∧ (Loop.watchRound gen render applyCfg ls (.snapshot cfg)).2.applyCount = 0
    ∧ (Loop.watchRound gen render applyCfg ls (.snapshot cfg)).1.currentState
        = ls.currentState := by
  simp [Loop.watchRound, hgen]

/-- C1: a round of the convergence loop whose generated state is structurally
equal to the last applied one performs no render and no apply and leaves the
last applied state in place; consequently, when a second snapshot generates a
state equal to the one applied for the first snapshot, the writer is not
invoked in the second round. -/
theorem convergence_skip_equal_state
    (gen : Consul.Config → HAState.State → Option HAState.State)
    (render : HAState.State → Option String) (applyCfg : String → Bool)
    (ls : Loop.LoopState) (cfg cfg2 : Consul.Config) :
    (gen cfg ls.currentState = some ls.currentState →
      (Loop.watchRound gen render applyCfg ls (.snapshot cfg)).2.renderCount = 0
      ∧ (Loop.watchRound gen render applyCfg ls (.snapshot cfg)).2.applyCount = 0
      ∧ (Loop.watchRound gen render applyCfg ls (.snapshot cfg)).1.currentState
          = ls.currentState)
    ∧ ((Loop.watchRound gen render applyCfg ls (.snapshot cfg)).2.applySucceeded = true →
        gen cfg2 (Loop.watchRound gen render applyCfg ls (.snapshot cfg)).1.currentState
          = some (Loop.watchRound gen render applyCfg ls (.snapshot cfg)).1.currentState →
        (Loop.watchRound gen render applyCfg
            (Loop.watchRound gen render applyCfg ls (.snapshot cfg)).1
            (.snapshot cfg2)).2.applyCount = 0) := by
  constructor
  · intro hgen
    exact watchRound_skip gen render applyCfg ls cfg hgen
  · intro _ hgen2
    exact (watchRound_skip gen render applyCfg
      (Loop.watchRound gen render applyCfg ls (.snapshot cfg)).1 cfg2 hgen2).2.1

/-- Witness: a round over a state already equal to the generated one skips
render and apply; after a first successful apply, a second snapshot
generating the same state leads to a round with zero writer invocations. -/
theorem convergence_skip_equal_state_witness :
    ((Loop.watchRound Fixtures.genB Fixtures.render1 Fixtures.apply1 Fixtures.ls1
        (.snapshot Fixtures.cfg0)).2.renderCount = 0
      ∧ (Loop.watchRound Fixtures.genB Fixtures.render1 Fixtures.apply1 Fixtures.ls1
          (.snapshot Fixtures.cfg0)).2.applyCount = 0
      ∧ (Loop.watchRound Fixtures.genB Fixtures.render1 Fixtures.apply1 Fixtures.ls1
          (.snapshot Fixtures.cfg0)).1.currentState = Fixtures.ls1.currentState)
    ∧ (Loop.watchRound Fixtures.genB Fixtures.render1 Fixtures.apply1
        (Loop.watchRound Fixtures.genB Fixtures.render1 Fixtures.apply1 Fixtures.ls0
          (.snapshot Fixtures.cfg0)).1
        (.snapshot Fixtures.cfg0)).2.applyCount = 0 :=
  ⟨(convergence_skip_equal_state Fixtures.genB Fixtures.render1 Fixtures.apply1
      Fixtures.ls1 Fixtures.cfg0 Fixtures.cfg0).1 rfl,
   (convergence_skip_equal_state Fixtures.genB Fixtures.render1 Fixtures.apply1
      Fixtures.ls0 Fixtures.cfg0 Fixtures.cfg0).2 (by decide) (by decide)⟩

theorem splitCh_no_sep (sep : Char) : ∀ (l : List Char), sep ∉ l →
    Cmd.splitCh sep l = [l] := by
  intro l hl
  induction l with
  | nil => rfl
  | cons c rest ih =>
    have hc : ¬ c = sep := fun h => hl (h ▸ List.mem_cons_self c rest)
    have hrest : sep ∉ rest := fun h => hl (List.mem_cons_of_mem c h)
    simp only [Cmd.splitCh, if_neg hc, ih hrest]

theorem splitCh_append (a b : List Char) (ha : '.' ∉ a) :
    Cmd.splitCh '.' (a ++ '.' :: b) = a :: Cmd.splitCh '.' b := by
  induction a with
  | nil => simp [Cmd.splitCh]
  | cons c rest ih =>
    have hc : ¬ c = '.' := fun h => ha (h ▸ List.mem_cons_self c rest)
    have hrest : '.' ∉ rest := fun h => ha (List.mem_cons_of_mem c h)
    simp only [List.cons_append, Cmd.splitCh, if_neg hc, List.append_eq, ih hrest]

theorem digitRun_all_digits : ∀ (l : List Char), (∀ c ∈ l, c.isDigit = true) →
    Cmd.digitRun l = l := by
  intro l hl
  induction l with
  | nil => rfl
  | cons c rest ih =>
    have hc : c.isDigit = true := hl c (List.mem_cons_self c rest)
    have hrest : ∀ c ∈ rest, c.isDigit = true := fun x hx => hl x (List.mem_cons_of_mem c hx)
    simp only [Cmd.digitRun, hc, if_pos, ih hrest]

theorem isDigit_ne_space {c : Char} (h : c.isDigit = true) : ¬ c = ' ' := by
  intro he; subst he; simp [Char.isDigit] at h

theorem isDigit_ne_minus {c : Char} (h : c.isDigit = true) : ¬ c = '-' := by
  intro he; subst he; simp [Char.isDigit] at h

theorem isDigit_ne_dot {c : Char} (h : c.isDigit = true) : ¬ c = '.' := by
  intro he; subst he; simp [Char.isDigit] at h

theorem sscanfInt_digits : ∀ (l : List Char), l ≠ [] → (∀ c ∈ l, c.isDigit = true) →
    Cmd.sscanfInt l = (Cmd.decVal l : Int) := by
  intro l hne hl
  rcases l with _ | ⟨c, rest⟩
  · exact absurd rfl hne
  · have hc : c.isDigit = true := hl c (List.mem_cons_self c rest)
    have hdrop : (c :: rest).dropWhile (fun x => x = ' ') = c :: rest := by
      simp only [List.dropWhile_cons]
      simp [isDigit_ne_space hc]
    have hrun : Cmd.digitRun (c :: rest) = c :: rest := digitRun_all_digits _ hl
    simp only [Cmd.sscanfInt, hdrop, if_neg (isDigit_ne_minus hc), hrun]
    simp


/-- C8 counterexample: version 4.0 is accepted. compareVersion("4.0", "4.0")
is 0, and CheckEnvironment only rejects a strictly positive comparison
against the maximum, so no error is returned at exactly 4.0 even though the
claim requires one for versions at or above 4.0. -/
theorem version_four_accepted : Cmd.versionAccept ['4', '.', '0'] = true := by decide

/-- C8 amended: for a version string with decimal major and minor components,
the check accepts exactly the versions v with 2.0 <= v <= 4.0 - the upper
bound is inclusive, unlike the claimed half-open interval. -/
theorem version_bounds_inclusive
    (a b : List Char) (hna : a ≠ []) (hnb : b ≠ [])
    (hda : ∀ c ∈ a, c.isDigit = true) (hdb : ∀ c ∈ b, c.isDigit = true) :
    Cmd.versionAccept (a ++ '.' :: b) = true ↔
      (2 ≤ Cmd.decVal a ∧ (Cmd.decVal a < 4 ∨ (Cmd.decVal a = 4 ∧ Cmd.decVal b = 0))) := by
  have hdota : '.' ∉ a := fun h => isDigit_ne_dot (hda _ h) rfl
  have hdotb : '.' ∉ b := fun h => isDigit_ne_dot (hdb _ h) rfl
  have hsplit : Cmd.splitCh '.' (a ++ '.' :: b) = [a, b] := by
    rw [splitCh_append a b hdota, splitCh_no_sep '.' b hdotb]
  have hsa : Cmd.sscanfInt a = (Cmd.decVal a : Int) := sscanfInt_digits a hna hda
  have hsb : Cmd.sscanfInt b = (Cmd.decVal b : Int) := sscanfInt_digits b hnb hdb
  have h2 : Cmd.sscanfInt ['2'] = 2 := by decide
  have h0 : Cmd.sscanfInt ['0'] = 0 := by decide
  have h4 : Cmd.sscanfInt ['4'] = 4 := by decide
  have hs20 : Cmd.splitCh '.' ['2', '.', '0'] = [['2'], ['0']] := by decide
  have hs40 : Cmd.splitCh '.' ['4', '.', '0'] = [['4'], ['0']] := by decide
  have hmin : Cmd.compareVersion (a ++ '.' :: b) ['2', '.', '0']
      = some (Cmd.cmpComponents [a, b] [['2'], ['0']]) := by
    unfold Cmd.compareVersion
    rw [hsplit, hs20]
    norm_num
  have hmax : Cmd.compareVersion (a ++ '.' :: b) ['4', '.', '0']
      = some (Cmd.cmpComponents [a, b] [['4'], ['0']]) := by
    unfold Cmd.compareVersion
    rw [hsplit, hs40]
    norm_num
  simp only [Cmd.versionAccept, hmin, hmax, Cmd.cmpComponents, hsa, hsb, h2, h0, h4]
  split_ifs <;> simp <;> omega

/-- Witness: versions 2.0 and 3.9 are accepted, version 1.9 is not, matching
the amended bounds. -/
theorem version_bounds_inclusive_witness :
    (Cmd.versionAccept ['3', '.', '9'] = true ↔
      (2 ≤ Cmd.decVal ['3'] ∧ (Cmd.decVal ['3'] < 4
        ∨ (Cmd.decVal ['3'] = 4 ∧ Cmd.decVal ['9'] = 0))))
    ∧ (Cmd.versionAccept ['1', '.', '9'] = true ↔
      (2 ≤ Cmd.decVal ['1'] ∧ (Cmd.decVal ['1'] < 4
        ∨ (Cmd.decVal ['1'] = 4 ∧ Cmd.decVal ['9'] = 0)))) :=
  ⟨version_bounds_inclusive ['3'] ['9'] (by decide) (by decide) (by decide) (by decide),
   version_bounds_inclusive ['1'] ['9'] (by decide) (by decide) (by decide) (by decide)⟩

theorem ltChars_irrefl : ∀ (l : List Char), Consul.ltChars l l = false := by
  intro l
  induction l with
  | nil => rfl
  | cons c rest ih => simp [Consul.ltChars, lt_irrefl, ih]

theorem ltChars_trans : ∀ (a b c : List Char),
    Consul.ltChars a b = true → Consul.ltChars b c = true → Consul.ltChars a c = true := by
  intro a
  induction a with
  | nil =>
    intro b c hab hbc
    rcases b with _ | ⟨y, ys⟩
    · simp [Consul.ltChars] at hab
    · rcases c with _ | ⟨z, zs⟩
      · simp [Consul.ltChars] at hbc
      · simp [Consul.ltChars]
  | cons x xs ih =>
    intro b c hab hbc
    rcases b with _ | ⟨y, ys⟩
    · simp [Consul.ltChars] at hab
    · rcases c with _ | ⟨z, zs⟩
      · simp [Consul.ltChars] at hbc
      · simp only [Consul.ltChars] at hab hbc ⊢
        by_cases hxy : x < y
        · by_cases hyz : y < z
          · simp [lt_trans hxy hyz]
          · by_cases hzy : z < y
            · simp [hyz, hzy] at hbc
            · have hyz2 : y = z := le_antisymm (not_lt.mp hzy) (not_lt.mp hyz)
              subst hyz2
              simp [hxy]
        · by_cases hyx : y < x
          · simp [hxy, hyx] at hab
          · have hxy2 : x = y := le_antisymm (not_lt.mp hyx) (not_lt.mp hxy)
            subst hxy2
            simp [lt_irrefl] at hab
            by_cases hxz : x < z
            · simp [hxz]
            · by_cases hzx : z < x
              · simp [hxz, hzx] at hbc
              · have hxz2 : x = z := le_antisymm (not_lt.mp hzx) (not_lt.mp hxz)
                subst hxz2
                simp [lt_irrefl] at hbc ⊢
                exact ih ys zs hab hbc

theorem ltChars_trichotomy : ∀ (a b : List Char),
    Consul.ltChars a b = true ∨ Consul.ltChars b a = true ∨ a = b := by
  intro a
  induction a with
  | nil =>
    intro b
    rcases b with _ | ⟨y, ys⟩
    · exact Or.inr (Or.inr rfl)
    · exact Or.inl (by simp [Consul.ltChars])
  | cons x xs ih =>
    intro b
    rcases b with _ | ⟨y, ys⟩
    · exact Or.inr (Or.inl (by simp [Consul.ltChars]))
    · rcases lt_trichotomy x y with h | h | h
      · exact Or.inl (by simp [Consul.ltChars, h])
      · subst h
        rcases ih ys with h2 | h2 | h2
        · exact Or.inl (by simp [Consul.ltChars, lt_irrefl, h2])
        · exact Or.inr (Or.inl (by simp [Consul.ltChars, lt_irrefl, h2]))
        · exact Or.inr (Or.inr (by rw [h2]))
      · exact Or.inr (Or.inl (by simp [Consul.ltChars, h]))

theorem nameLe_total (a b : Consul.Upstream) : Consul.nameLe a b ∨ Consul.nameLe b a := by
  unfold Consul.nameLe
  rcases hba : Consul.ltChars b.Name.data a.Name.data with _ | _
  · exact Or.inl rfl
  · refine Or.inr ?_
    rcases hab : Consul.ltChars a.Name.data b.Name.data with _ | _
    · rfl
    · have := ltChars_trans _ _ _ hab hba
      rw [ltChars_irrefl] at this
      exact absurd this (by simp)

theorem nameLe_trans (a b c : Consul.Upstream)
    (hab : Consul.nameLe a b) (hbc : Consul.nameLe b c) : Consul.nameLe a c := by
  unfold Consul.nameLe at hab hbc ⊢
  rcases hca : Consul.ltChars c.Name.data a.Name.data with _ | _
  · rfl
  · exfalso
    rcases ltChars_trichotomy a.Name.data b.Name.data with h | h | h
    · have := ltChars_trans _ _ _ hca h
      rw [hbc] at this
      exact absurd this (by simp)
    · rw [hab] at h
      exact absurd h (by simp)
    · rw [h] at hca
      rw [hbc] at hca
      exact absurd hca (by simp)

theorem generate_foldl (opts : HAState.Options) (cp : Consul.TLS → String × String)
    (prev : HAState.State) :
    ∀ (ups : List Consul.Upstream) (st : HAState.State),
    (ups.foldl (fun st up => HAState.generateUpstream opts cp up prev st) st).Frontends
        = st.Frontends ++ ups.map (HAState.upstreamFrontend opts)
    ∧ (ups.foldl (fun st up => HAState.generateUpstream opts cp up prev st) st).Backends
        = st.Backends ++ ups.map (HAState.upstreamBackend opts cp) := by
  intro ups
  induction ups with
  | nil => intro st; simp
  | cons up rest ih =>
    intro st
    rcases ih (HAState.generateUpstream opts cp up prev st) with ⟨hf, hb⟩
    simp only [List.foldl_cons, List.map_cons] at *
    rw [hf, hb]
    simp [HAState.generateUpstream]

theorem serversFrom_names (crtPath caPath : String) :
    ∀ (ns : List Consul.UpstreamNode) (i : Nat),
    (HAState.serversFrom crtPath caPath i ns).map (fun s => s.Name)
      = (List.range' i ns.length).map (fun k => "srv_" ++ toString k) := by
  intro ns
  induction ns with
  | nil => intro i; rfl
  | cons n rest ih =>
    intro i
    simp only [HAState.serversFrom, List.map_cons, List.length_cons, List.range'_succ]
    rw [ih (i + 1)]
    rfl

/-- C5: ordering determinism of the generated state. The snapshot built by
genCfg lists upstreams sorted by name; the generator emits the downstream
frontend/backend first and then one frontend/backend per upstream in snapshot
order (so a sorted snapshot yields a sorted state); and within each upstream
backend the servers are named srv_0, srv_1, ... in the order of the
endpoints in the snapshot. -/
theorem state_ordering_deterministic
    (w : Consul.WatcherState) (opts : HAState.Options)
    (cp : Consul.TLS → String × String) (prev : HAState.State)
    (cfg : Consul.Config) (u : Consul.Upstream) :
    List.Sorted Consul.nameLe (Consul.genCfg w).Upstreams
    ∧ (HAState.Generate opts cp prev cfg).Frontends.map (fun f => f.Frontend.Name)
        = "front_downstream" :: cfg.Upstreams.map (fun up => "front_" ++ up.Name)
    ∧ (HAState.Generate opts cp prev cfg).Backends.map (fun b => b.Backend.Name)
        = "back_downstream" :: cfg.Upstreams.map (fun up => "back_" ++ up.Name)
    ∧ (HAState.upstreamBackend opts cp u).Servers.map (fun s => s.Name)
        = (List.range u.Nodes.length).map (fun i => "srv_" ++ toString i) := by
  refine ⟨?_, ?_, ?_, ?_⟩
  · haveI : IsTotal Consul.Upstream Consul.nameLe := ⟨nameLe_total⟩
    haveI : IsTrans Consul.Upstream Consul.nameLe := ⟨nameLe_trans⟩
    exact List.sorted_insertionSort Consul.nameLe _
  · rcases generate_foldl opts cp prev cfg.Upstreams
        (HAState.generateDownstream opts cp cfg.Downstream {}) with ⟨hf, _⟩
    unfold HAState.Generate
    rw [hf]
    simp [HAState.generateDownstream, HAState.downstreamFrontend, HAState.upstreamFrontend]
  · rcases generate_foldl opts cp prev cfg.Upstreams
        (HAState.generateDownstream opts cp cfg.Downstream {}) with ⟨_, hb⟩
    unfold HAState.Generate
    rw [hb]
    simp [HAState.generateDownstream, HAState.downstreamBackend, HAState.upstreamBackend]
  · show (HAState.generateUpstreamServers cp u).map (fun s => s.Name) = _
    unfold HAState.generateUpstreamServers
    rw [serversFrom_names, List.range_eq_range']

/-- C4: endpoint selection in a built snapshot. The genCfg endpoint loop
equals the spec-side filter: an endpoint is included exactly when its
aggregated health is passing or warning and the corresponding mesh weight is
non-zero; included endpoints carry the passing weight when passing and the
warning weight when warning; any other status (e.g. critical) is dropped.
Every upstream of a built snapshot carries exactly the endpoints of its
source filtered this way. -/
theorem endpoint_inclusion
    (w : Consul.WatcherState) (u : Consul.Upstream) (s : Consul.ServiceEntry) :
    (∀ nodes, Consul.genCfgNodes nodes = nodes.filterMap Consul.specEndpoint)
    ∧ ((Consul.specEndpoint s).isSome = true ↔
        ((s.aggStatus = Consul.healthPassing ∧ s.weightPassing ≠ 0)
         ∨ (s.aggStatus = Consul.healthWarning ∧ s.weightWarning ≠ 0)))
    ∧ (s.aggStatus = Consul.healthPassing → s.weightPassing ≠ 0 →
        Consul.specEndpoint s = some ⟨Consul.hostOf s, s.servicePort, s.weightPassing⟩)
    ∧ (s.aggStatus = Consul.healthWarning → s.weightWarning ≠ 0 →
        Consul.specEndpoint s = some ⟨Consul.hostOf s, s.servicePort, s.weightWarning⟩)
    ∧ (u ∈ (Consul.genCfg w).Upstreams →
        ∃ src ∈ w.upstreams, u.Name = src.Name ∧ u.Nodes = Consul.genCfgNodes src.Nodes) := by
  refine ⟨?_, ?_, ?_, ?_, ?_⟩
  · intro nodes
    induction nodes with
    | nil => rfl
    | cons e rest ih =>
      simp only [Consul.genCfgNodes, Consul.specEndpoint, Consul.hostOf, List.filterMap_cons]
      by_cases hp : e.aggStatus = Consul.healthPassing
      · by_cases hwp : e.weightPassing = 0
        · simp [hp, hwp, ih, Consul.healthPassing, Consul.healthWarning]
        · simp [hp, hwp, ih, Consul.healthPassing, Consul.healthWarning]
      · by_cases hw : e.aggStatus = Consul.healthWarning
        · by_cases hww : e.weightWarning = 0
          · simp [hp, hw, hww, ih, Consul.healthPassing, Consul.healthWarning]
          · simp [hp, hw, hww, ih, Consul.healthPassing, Consul.healthWarning]
        · simp [hp, hw, ih]
  · unfold Consul.specEndpoint
    by_cases hp : s.aggStatus = Consul.healthPassing
    · by_cases hwp : s.weightPassing = 0
      · simp [hp, hwp, Consul.healthPassing, Consul.healthWarning]
      · simp [hp, hwp]
    · by_cases hw : s.aggStatus = Consul.healthWarning
      · by_cases hww : s.weightWarning = 0
        · simp [hp, hw, hww, Consul.healthPassing, Consul.healthWarning]
        · simp [hp, hw, hww, Consul.healthPassing, Consul.healthWarning]
      · simp [hp, hw]
  · intro hp hwp
    simp [Consul.specEndpoint, hp, hwp]
  · intro hw hww
    by_cases hp : s.aggStatus = Consul.healthPassing
    · rw [hp] at hw
      simp [Consul.healthPassing, Consul.healthWarning] at hw
    · simp [Consul.specEndpoint, hp, hw, hww, Consul.healthPassing, Consul.healthWarning]
  · intro hmem
    have hperm := List.perm_insertionSort Consul.nameLe
      (w.upstreams.map (fun up =>
        ({ Name := up.Name
           LocalBindAddress := up.LocalBindAddress
           LocalBindPort := up.LocalBindPort
           Protocol := up.Protocol
           ConnectTimeout := up.ConnectTimeout
           ReadTimeout := up.ReadTimeout
           TLS := ⟨w.certCAs, w.leafCert, w.leafKey⟩
           Nodes := Consul.genCfgNodes up.Nodes } : Consul.Upstream)))
    have hmem2 : u ∈ w.upstreams.map (fun up =>
        ({ Name := up.Name
           LocalBindAddress := up.LocalBindAddress
           LocalBindPort := up.LocalBindPort
           Protocol := up.Protocol
           ConnectTimeout := up.ConnectTimeout
           ReadTimeout := up.ReadTimeout
           TLS := ⟨w.certCAs, w.leafCert, w.leafKey⟩
           Nodes := Consul.genCfgNodes up.Nodes } : Consul.Upstream)) :=
      hperm.mem_iff.mp hmem
    rcases List.mem_map.mp hmem2 with ⟨src, hsrc, heq⟩
    exact ⟨src, hsrc, by rw [← heq], by rw [← heq]⟩

/-- Witness: in the fixture watcher state, the generated snapshot contains
the expected upstream, whose endpoint list keeps the passing endpoint with
the passing weight and drops the critical one. -/
theorem endpoint_inclusion_witness :
    (∃ src ∈ Fixtures.w0.upstreams,
        Fixtures.u0.Name = src.Name
        ∧ Fixtures.u0.Nodes = Consul.genCfgNodes src.Nodes)
    ∧ Consul.specEndpoint Fixtures.se1
        = some ⟨Consul.hostOf Fixtures.se1, Fixtures.se1.servicePort,
                Fixtures.se1.weightPassing⟩ :=
  ⟨(endpoint_inclusion Fixtures.w0 Fixtures.u0 Fixtures.se1).2.2.2.2 (by decide),
   (endpoint_inclusion Fixtures.w0 Fixtures.u0 Fixtures.se1).2.2.1 (by decide) (by decide)⟩

theorem word4_mem_lt {x w : Nat} (h : x ∈ SHA256.word4 w) : x < 256 := by
  simp only [SHA256.word4, List.mem_cons, List.not_mem_nil, or_false] at h
  rcases h with h | h | h | h <;> omega

theorem sha256_length (m : List Nat) : (SHA256.sha256 m).length = 32 := by
  simp [SHA256.sha256, SHA256.word4]

theorem word4_all_lt (w : Nat) : ∀ x ∈ SHA256.word4 w, x < 256 :=
  fun _ h => word4_mem_lt h

theorem sha256_mem_lt (m : List Nat) : ∀ x ∈ SHA256.sha256 m, x < 256 := by
  unfold SHA256.sha256
  simp only [List.forall_mem_append]
  exact ⟨⟨⟨⟨⟨⟨⟨word4_all_lt _, word4_all_lt _⟩, word4_all_lt _⟩, word4_all_lt _⟩,
    word4_all_lt _⟩, word4_all_lt _⟩, word4_all_lt _⟩, word4_all_lt _⟩

theorem ofDigits256_lt : ∀ (l : List Nat), (∀ x ∈ l, x < 256) →
    SHA256.ofDigits256 l < 256 ^ l.length := by
  intro l
  induction l with
  | nil => intro _; simp [SHA256.ofDigits256]
  | cons d t ih =>
    intro h
    have hd : d < 256 := h d (List.mem_cons_self d t)
    have ht := ih (fun x hx => h x (List.mem_cons_of_mem d hx))
    simp only [SHA256.ofDigits256, List.foldr_cons, List.length_cons] at *
    rw [pow_succ]
    omega

theorem ofDigits256_inj : ∀ (l1 l2 : List Nat), l1.length = l2.length →
    (∀ x ∈ l1, x < 256) → (∀ x ∈ l2, x < 256) →
    SHA256.ofDigits256 l1 = SHA256.ofDigits256 l2 → l1 = l2 := by
  intro l1
  induction l1 with
  | nil =>
    intro l2 hlen _ _ _
    rcases l2 with _ | ⟨e, u⟩
    · rfl
    · simp at hlen
  | cons d t ih =>
    intro l2 hlen h1 h2 heq
    rcases l2 with _ | ⟨e, u⟩
    · simp at hlen
    · have hd : d < 256 := h1 d (List.mem_cons_self d t)
      have he : e < 256 := h2 e (List.mem_cons_self e u)
      simp only [SHA256.ofDigits256, List.foldr_cons] at heq
      have hde : d = e ∧ t.foldr (fun d acc => d + 256 * acc) 0
          = u.foldr (fun d acc => d + 256 * acc) 0 := by omega
      have ht : t = u := by
        refine ih u (by simpa using hlen) (fun x hx => h1 x (List.mem_cons_of_mem d hx))
          (fun x hx => h2 x (List.mem_cons_of_mem e hx)) ?_
        simpa [SHA256.ofDigits256] using hde.2
      rw [hde.1, ht]

theorem hexDigit_inj_fin : ∀ (a b : Fin 16),
    CertStore.hexDigit a = CertStore.hexDigit b → a = b := by decide

theorem hexEncode_inj : ∀ (l1 l2 : List Nat),
    (∀ x ∈ l1, x < 256) → (∀ x ∈ l2, x < 256) →
    CertStore.hexEncode l1 = CertStore.hexEncode l2 → l1 = l2 := by
  intro l1
  induction l1 with
  | nil =>
    intro l2 _ _ heq
    rcases l2 with _ | ⟨e, u⟩
    · rfl
    · simp [CertStore.hexEncode] at heq
  | cons d t ih =>
    intro l2 h1 h2 heq
    rcases l2 with _ | ⟨e, u⟩
    · simp [CertStore.hexEncode] at heq
    · have hd : d < 256 := h1 d (List.mem_cons_self d t)
      have he : e < 256 := h2 e (List.mem_cons_self e u)
      simp only [CertStore.hexEncode, List.cons.injEq] at heq
      obtain ⟨hq1, hq2, hrest⟩ := heq
      have hdq : d / 16 = e / 16 := by
        have := hexDigit_inj_fin ⟨d / 16, by omega⟩ ⟨e / 16, by omega⟩ hq1
        simpa using congrArg Fin.val this
      have hdm : d % 16 = e % 16 := by
        have := hexDigit_inj_fin ⟨d % 16, by omega⟩ ⟨e % 16, by omega⟩ hq2
        simpa using congrArg Fin.val this
      have hde : d = e := by omega
      have ht : t = u := ih u (fun x hx => h1 x (List.mem_cons_of_mem d hx))
        (fun x hx => h2 x (List.mem_cons_of_mem e hx)) hrest
      rw [hde, ht]

set_option maxRecDepth 10000

set_option maxHeartbeats 4000000

/-- C2 counterexample: it is not the case that distinct contents always map
to distinct store paths. The path is determined by the 32-byte SHA-256
digest, whose space is finite while contents are unbounded, so by pigeonhole
some two distinct contents share a digest and hence share the store path. No
explicit colliding pair is known, but the universal claim is provably false. -/
theorem store_distinct_content_collides :
    ¬ ∀ (b1 b2 : List Nat), b1 ≠ b2 →
        CertStore.filePathOf "certs".data b1 ≠ CertStore.filePathOf "certs".data b2 := by
  intro h
  have hfin : ∀ b : List Nat, SHA256.ofDigits256 (SHA256.sha256 b) < 256 ^ 32 := by
    intro b
    have := ofDigits256_lt (SHA256.sha256 b) (sha256_mem_lt b)
    rwa [sha256_length] at this
  obtain ⟨b1, b2, hne, heq⟩ := Finite.exists_ne_map_eq_of_infinite
    (fun b : List Nat => (⟨SHA256.ofDigits256 (SHA256.sha256 b), hfin b⟩ : Fin (256 ^ 32)))
  simp only [Fin.mk.injEq] at heq
  have hdig : SHA256.sha256 b1 = SHA256.sha256 b2 :=
    ofDigits256_inj _ _ (by rw [sha256_length, sha256_length])
      (sha256_mem_lt b1) (sha256_mem_lt b2) heq
  exact h b1 b2 hne (by simp [CertStore.filePathOf, hdig])

/-- C2 amended: the store path is `<base>/<hex(sha256(content))>`; storing the
same content again returns the same path and leaves the store unchanged (the
existing file is not rewritten); and contents with distinct SHA-256 digests
receive distinct paths (distinct contents can only share a path on a digest
collision, which pigeonhole shows must exist for some pair). -/
theorem store_content_addressed :
    (∀ (base : List Char) (fs : CertStore.CertFS) (content : List Nat),
        (CertStore.FilePath base fs content).1 = CertStore.filePathOf base content)
    ∧ (∀ (base : List Char) (fs : CertStore.CertFS) (content : List Nat),
        CertStore.FilePath base (CertStore.FilePath base fs content).2 content
          = CertStore.FilePath base fs content)
    ∧ (∀ (base : List Char) (b1 b2 : List Nat),
        SHA256.sha256 b1 ≠ SHA256.sha256 b2 →
        CertStore.filePathOf base b1 ≠ CertStore.filePathOf base b2) := by
  refine ⟨?_, ?_, ?_⟩
  · intro base fs content
    unfold CertStore.FilePath
    rcases h : CertStore.lookupFS fs (CertStore.filePathOf base content) with _ | v <;> simp [h]
  · intro base fs content
    unfold CertStore.FilePath
    rcases h : CertStore.lookupFS fs (CertStore.filePathOf base content) with _ | v
    · have h2 : CertStore.lookupFS ⟨fs.files ++ [(CertStore.filePathOf base content, content)]⟩
          (CertStore.filePathOf base content) = some content := by
        unfold CertStore.lookupFS at h ⊢
        rcases hf : fs.files.find? (fun e => e.1 = CertStore.filePathOf base content) with _ | e
        · rw [List.find?_append, hf]
          simp
        · rw [hf] at h
          simp at h
      simp [h, h2]
    · simp [h]
  · intro base b1 b2 hdig hpath
    unfold CertStore.filePathOf at hpath
    have hcons := List.append_cancel_left hpath
    have hhex : CertStore.hexEncode (SHA256.sha256 b1)
        = CertStore.hexEncode (SHA256.sha256 b2) := by
      injection hcons
    exact hdig (hexEncode_inj _ _ (sha256_mem_lt b1) (sha256_mem_lt b2) hhex)

/-- Witness: the empty content and the one-byte content 0 have different
SHA-256 digests (computed by the kernel), hence different store paths. -/
theorem store_content_addressed_witness :
    CertStore.filePathOf "certs".data [] ≠ CertStore.filePathOf "certs".data [0] :=
  store_content_addressed.2.2 "certs".data [] [0] (by decide)
